import Mathlib

/-!
Verification of `pyvista/plotting/_plotting.py`: the two pre-processing
utilities `prepare_smooth_shading` and `process_opacity`, shallowly embedded.

External collaborators (the VTK-backed dataset operations `extract_surface`,
`compute_normals`, and the helpers `get_array` / `opacity_transfer_function`)
are not part of this module's source; they are modelled abstractly
(`MeshOps`, the `otf` parameter) or from the spec's collaborator contract,
with their contractual properties stated as hypotheses (`OpsContract`).
-/

/-! ## Association-list attribute tables -/

/-- Lookup by name in an attribute table (Python `point_data[name]` read,
returning `none` where Python raises `KeyError`). -/
def listLookup {α : Type} (l : List (String × α)) (k : String) : Option α :=
  match l with
  | [] => none
  | p :: t => if p.1 = k then some p.2 else listLookup t k

/-- Dict-style assignment `point_data[k] = v`: overwrite any existing entry. -/
def pdSet {α : Type} (l : List (String × α)) (k : String) (v : α) :
    List (String × α) :=
  (k, v) :: l.filter (fun p => p.1 ≠ k)

/-- Dict-style deletion `del point_data[k]` keeps the other entries. -/
def pdDel {α : Type} (l : List (String × α)) (k : String) : List (String × α) :=
  l.filter (fun p => p.1 ≠ k)

/-- NumPy fancy indexing `s[ind]`: `none` where NumPy raises `IndexError`
(an index out of range). -/
def npIndex {α : Type} (d : α) (s : List α) (ind : List Nat) : Option (List α) :=
  if ind.all (fun i => decide (i < s.length)) then
    some (ind.map (fun i => s.getD i d))
  else
    none

/-! ## The dataset model for `prepare_smooth_shading` -/

/-- The slice of a pyvista dataset that `prepare_smooth_shading` touches:
point count, the per-point attribute table (only integer index arrays are
read by the function), whether the dataset is a `PolyData` surface, whether
point normals have been computed, and the active texture coordinates
(`none` models Python `None`). -/
structure PMesh where
  n_points : Nat
  point_data : List (String × List Nat)
  is_polydata : Bool
  has_normals : Bool
  t_coords : Option (List Nat)
  deriving DecidableEq, Repr

/-- Well-formedness of the attribute table: every per-point array has one
entry per point. -/
def PMesh.wf (m : PMesh) : Prop :=
  ∀ p ∈ m.point_data, p.2.length = m.n_points

instance (m : PMesh) : Decidable m.wf := by
  unfold PMesh.wf; infer_instance

/-- The external dataset operations used by `prepare_smooth_shading`:
`mesh.extract_surface()`, `mesh.compute_normals(split_vertices=True,
feature_angle=...)` (returns a new mesh) and
`mesh.compute_normals(inplace=True)` (mutation, modelled functionally). -/
structure MeshOps where
  extract_surface : PMesh → PMesh
  compute_normals_split : ℚ → PMesh → PMesh
  compute_normals_inplace : PMesh → PMesh

/-- Modelled from the spec: the collaborator contract (§6) for the external
Dataset/Mesh abstraction, which is not part of this module's source.
Extraction returns a surface and keeps attribute arrays sized to the point
count; both normals computations return surfaces with valid point normals;
the in-place variant does not change the point count; and no collaborator
invents the module-private `__orig_ids__` attribute. -/
structure OpsContract (ops : MeshOps) : Prop where
  extract_wf : ∀ m, m.wf → (ops.extract_surface m).wf
  split_wf : ∀ a m, m.wf → (ops.compute_normals_split a m).wf
  inplace_wf : ∀ m, m.wf → (ops.compute_normals_inplace m).wf
  extract_poly : ∀ m, (ops.extract_surface m).is_polydata = true
  split_poly : ∀ a m, (ops.compute_normals_split a m).is_polydata = m.is_polydata
  inplace_poly : ∀ m, (ops.compute_normals_inplace m).is_polydata = m.is_polydata
  split_normals : ∀ a m, (ops.compute_normals_split a m).has_normals = true
  inplace_normals : ∀ m, (ops.compute_normals_inplace m).has_normals = true
  inplace_n_points : ∀ m, (ops.compute_normals_inplace m).n_points = m.n_points
  extract_no_orig : ∀ m, listLookup m.point_data "__orig_ids__" = none →
    listLookup (ops.extract_surface m).point_data "__orig_ids__" = none
  split_no_orig : ∀ a m, listLookup m.point_data "__orig_ids__" = none →
    listLookup (ops.compute_normals_split a m).point_data "__orig_ids__" = none
  inplace_no_orig : ∀ m, listLookup m.point_data "__orig_ids__" = none →
    listLookup (ops.compute_normals_inplace m).point_data "__orig_ids__" = none

/-! ## `prepare_smooth_shading` -/

/-- Lines 51-54 of `_plotting.py`: `if not is_polydata: mesh =
mesh.extract_surface()`. -/
def extractedMesh (ops : MeshOps) (mesh : PMesh) : PMesh :=
  if mesh.is_polydata then mesh else ops.extract_surface mesh

/-- The `indices_array` local of `prepare_smooth_shading` once both
branches that assign it have run: `'vtkOriginalPointIds'` after surface
extraction, `'__orig_ids__'` for a polydata input with edge splitting,
`None` otherwise. -/
def indicesArrayName (is_polydata sse : Bool) : Option String :=
  if sse && is_polydata then some "__orig_ids__"
  else if is_polydata then none
  else some "vtkOriginalPointIds"

/-- Lines 59-71 of `_plotting.py`: for edge splitting, a polydata input
first records the identity map in `'__orig_ids__'`, then
`compute_normals(split_vertices=True, feature_angle=...)` returns a new
mesh; otherwise `compute_normals(inplace=True)` runs on the current mesh. -/
def shadingSurface (ops : MeshOps) (mesh : PMesh) (sse : Bool) (fa : ℚ) : PMesh :=
  if sse then
    ops.compute_normals_split fa
      (if mesh.is_polydata then
        { extractedMesh ops mesh with
          point_data :=
            pdSet (extractedMesh ops mesh).point_data "__orig_ids__"
              (List.range (extractedMesh ops mesh).n_points) }
      else extractedMesh ops mesh)
  else
    ops.compute_normals_inplace (extractedMesh ops mesh)

/-- Lines 73-75 of `_plotting.py`: `if scalars is not None and
indices_array is not None: ind = mesh.point_data[indices_array]; scalars =
np.asarray(scalars)[ind]`.  `none` models a raised `KeyError`/`IndexError`. -/
def scalarsStep (mesh2 : PMesh) (scalars : Option (List ℚ))
    (indices : Option String) : Option (Option (List ℚ)) :=
  match scalars, indices with
  | some s, some name =>
    match listLookup mesh2.point_data name with
    | some ind => (npIndex 0 s ind).map some
    | none => none
  | s, _ => some s

/-- Lines 77-81 of `_plotting.py`: re-index the captured texture
coordinates through the index array (when one exists) and store them as
the active texture coordinates. -/
def textureStep (mesh2 : PMesh) (tcoords0 : Option (List Nat)) (tex : Bool)
    (indices : Option String) : Option PMesh :=
  if tex then
    match indices with
    | some name =>
      match listLookup mesh2.point_data name, tcoords0 with
      | some ind, some tc =>
        (npIndex 0 tc ind).map (fun tc2 => { mesh2 with t_coords := some tc2 })
      | _, _ => none
    | none => some { mesh2 with t_coords := tcoords0 }
  else
    some mesh2

/-- Lines 83-85 of `_plotting.py`: `if indices_array == '__orig_ids__':
del mesh.point_data['__orig_ids__']`. -/
def deleteStep (m3 : PMesh) (indices : Option String) : Option PMesh :=
  if indices = some "__orig_ids__" then
    match listLookup m3.point_data "__orig_ids__" with
    | some _ => some { m3 with point_data := pdDel m3.point_data "__orig_ids__" }
    | none => none
  else
    some m3

/-- Shallow embedding of `prepare_smooth_shading(mesh, scalars, texture,
split_sharp_edges, feature_angle)` from `_plotting.py`, composed from the
stage functions above in source order.  The result is `none` where the
Python function raises (a missing index array, indexing `None` texture
coordinates, or an out-of-range index).  `texture` is only truth-tested by
the source, so it is a `Bool` here; the texture coordinates are captured
from the post-extraction mesh (line 57) before normals are computed. -/
def prepare_smooth_shading (ops : MeshOps) (mesh : PMesh)
    (scalars : Option (List ℚ)) (texture split_sharp_edges : Bool)
    (feature_angle : ℚ) : Option (PMesh × Option (List ℚ)) := do
  let mesh2 := shadingSurface ops mesh split_sharp_edges feature_angle
  let indices := indicesArrayName mesh.is_polydata split_sharp_edges
  let s2 ← scalarsStep mesh2 scalars indices
  let m3 ← textureStep mesh2 (extractedMesh ops mesh).t_coords texture indices
  let m4 ← deleteStep m3 indices
  pure (m4, s2)

/-! ## A concrete instance of the collaborator contract (for witnesses) -/

/-- A minimal concrete implementation of the external dataset operations:
extraction marks the mesh polygonal and records the identity original-point
map; both normals computations simply mark normals as computed.  It
satisfies `OpsContract`. -/
def idOps : MeshOps where
  extract_surface m :=
    { m with
      is_polydata := true
      point_data := pdSet m.point_data "vtkOriginalPointIds" (List.range m.n_points) }
  compute_normals_split _ m := { m with has_normals := true }
  compute_normals_inplace m := { m with has_normals := true }

theorem listLookup_cons {α : Type} (p : String × α) (t : List (String × α))
    (k : String) :
    listLookup (p :: t) k = if p.1 = k then some p.2 else listLookup t k := rfl

theorem listLookup_filter_ne {α : Type} (l : List (String × α)) (k k' : String)
    (h : k' ≠ k) :
    listLookup (l.filter (fun p => p.1 ≠ k)) k' = listLookup l k' := by
  induction l with
  | nil => rfl
  | cons a t ih =>
    rw [List.filter_cons]
    by_cases hak : a.1 = k
    · rw [if_neg (by simp [hak]), ih, listLookup_cons,
        if_neg (fun e => h (e.symm.trans hak))]
    · rw [if_pos (by simpa using hak), listLookup_cons, listLookup_cons, ih]

theorem listLookup_pdSet_ne {α : Type} (l : List (String × α)) (k k' : String)
    (v : α) (h : k' ≠ k) : listLookup (pdSet l k v) k' = listLookup l k' := by
  unfold pdSet
  rw [listLookup_cons, if_neg (fun e => h e.symm), listLookup_filter_ne l k k' h]

theorem listLookup_pdSet_self {α : Type} (l : List (String × α)) (k : String)
    (v : α) : listLookup (pdSet l k v) k = some v := by
  unfold pdSet
  rw [listLookup_cons, if_pos rfl]

theorem listLookup_pdDel_self {α : Type} (l : List (String × α)) (k : String) :
    listLookup (pdDel l k) k = none := by
  unfold pdDel
  induction l with
  | nil => rfl
  | cons a t ih =>
    rw [List.filter_cons]
    by_cases hak : a.1 = k
    · rw [if_neg (by simp [hak])]
      exact ih
    · rw [if_pos (by simpa using hak), listLookup_cons, if_neg hak]
      exact ih

theorem listLookup_mem {α : Type} {l : List (String × α)} {k : String} {v : α}
    (h : listLookup l k = some v) : (k, v) ∈ l := by
  induction l with
  | nil => exact absurd h (by simp [listLookup])
  | cons a t ih =>
    rw [listLookup_cons] at h
    by_cases hak : a.1 = k
    · rw [if_pos hak] at h
      refine List.mem_cons.mpr (Or.inl ?_)
      cases a
      cases hak
      cases h
      rfl
    · rw [if_neg hak] at h
      exact List.mem_cons.mpr (Or.inr (ih h))

theorem npIndex_eq_some {α : Type} {d : α} {s : List α} {ind : List Nat}
    {r : List α} (h : npIndex d s ind = some r) :
    (∀ i ∈ ind, i < s.length) ∧ r = ind.map (fun i => s.getD i d) := by
  unfold npIndex at h
  split at h
  · next hall =>
    refine ⟨?_, (Option.some.inj h).symm⟩
    intro i hi
    simpa using List.all_eq_true.mp hall i hi
  · exact absurd h (by simp)

theorem pdSet_wf (m : PMesh) (k : String) (v : List Nat)
    (hm : m.wf) (hv : v.length = m.n_points) :
    PMesh.wf { m with point_data := pdSet m.point_data k v } := by
  intro p hp
  rcases List.mem_cons.mp hp with hp | hp
  · simp [hp, hv]
  · exact hm p (List.mem_of_mem_filter hp)

theorem pdDel_wf (m : PMesh) (k : String) (hm : m.wf) :
    PMesh.wf { m with point_data := pdDel m.point_data k } := by
  intro p hp
  exact hm p (List.mem_of_mem_filter hp)

theorem wf_lookup_length {m : PMesh} {k : String} {v : List Nat}
    (hm : m.wf) (h : listLookup m.point_data k = some v) :
    v.length = m.n_points :=
  hm (k, v) (listLookup_mem h)

/-! ## The dataset model for `process_opacity` -/

/-- The slice of a pyvista dataset that `process_opacity` touches:
the point and cell counts and the two named numeric attribute tables.
Numeric values are modelled as rationals. -/
structure OMesh where
  n_points : Nat
  n_cells : Nat
  point_arrays : List (String × List ℚ)
  cell_arrays : List (String × List ℚ)
  deriving DecidableEq, Repr

/-- The `opacity` argument of `process_opacity`: a string naming a mesh
attribute (or a curve preset), a numeric `ndarray`/`list`/`tuple`, or a
plain Python number (any other value falls through both `isinstance`
tests). -/
inductive Opacity where
  | str (s : String)
  | arr (a : List ℚ)
  | num (q : ℚ)
  deriving DecidableEq, Repr

/-- A resolved opacity value as it flows through the tail of
`process_opacity`: either a plain number or a NumPy array (the
`isinstance(opacity, np.ndarray)` test distinguishes the two). -/
inductive OpVal where
  | scalar (q : ℚ)
  | array (a : List ℚ)
  deriving DecidableEq, Repr

/-- Python exceptions that can escape `process_opacity`:
the explicit `ValueError` (also raised by `np.max` on an empty array) and
the `AttributeError` from `scalars.shape` when `scalars` is `None`. -/
inductive PyErr where
  | valueError
  | attrError
  deriving DecidableEq, Repr

/-- Modelled from the spec: `pyvista.utilities.get_array(mesh, name,
preference, err=True)`, which is not part of this module's source — look up
a named attribute among the per-point and per-cell arrays, honouring
`preference` when the name occurs in both; `none` models the exception
raised (with `err=True`) when the name resolves to no array. -/
def get_array (m : OMesh) (name : String) (preference : String) : Option (List ℚ) :=
  match listLookup m.point_arrays name, listLookup m.cell_arrays name with
  | some p, some c => if preference = "cell" then some c else some p
  | some p, none => some p
  | none, some c => some c
  | none, none => none

/-- The advisory warnings emitted inside the `try` block of
`process_opacity` after a successful named-array lookup. -/
def opacityWarnings (o : List ℚ) : List String :=
  (if o.any (fun x => 1 < x) then ["Opacity scalars contain values over 1"]
   else []) ++
  (if o.any (fun x => x < 0) then ["Opacity scalars contain values less than 0"]
   else [])

/-- `np.max(opacity)`: the maximum of an array (`none` models the
`ValueError` NumPy raises on an empty array), or the number itself. -/
def OpVal.npMax : OpVal → Option ℚ
  | .scalar q => some q
  | .array [] => none
  | .array (x :: xs) => some (xs.foldl max x)

/-- `isinstance(opacity, np.ndarray)` on a resolved opacity value. -/
def OpVal.isNdarray : OpVal → Bool
  | .scalar _ => false
  | .array _ => true

/-- Elementwise `c - opacity` (NumPy broadcasting; on a plain number it is
ordinary subtraction). -/
def OpVal.rsub (c : ℚ) : OpVal → OpVal
  | .scalar q => .scalar (c - q)
  | .array a => .array (a.map (fun x => c - x))

/-- The `use_transparency` tail of `process_opacity`:
`if use_transparency and np.max(opacity) <= 1.0: opacity = 1 - opacity`
`elif use_transparency and isinstance(opacity, np.ndarray): opacity = 255 - opacity`. -/
def applyTransparency (use_transparency : Bool) (v : OpVal) : Except PyErr OpVal :=
  if use_transparency then
    match v.npMax with
    | none => .error .valueError
    | some mx =>
      if mx ≤ 1 then .ok (v.rsub 1)
      else if v.isNdarray then .ok (v.rsub 255)
      else .ok v
  else
    .ok v

/-- Lines 124-150 of `_plotting.py`: the type dispatch on `opacity`.
A string is looked up on the mesh (the `try` suite, including the advisory
warnings); on success the `else` clause reads `scalars.shape[0]`
(`AttributeError` when `scalars` is `None`, `ValueError` on a length
mismatch); on lookup failure the bare `except:` falls back to the opacity
transfer function.  An `ndarray`/`list`/`tuple` is kept literally when its
length matches the cell or point count, and otherwise goes through the
transfer function; any other value falls through unchanged. -/
def resolveOpacity (otf : Opacity → Nat → List ℚ) (mesh : OMesh)
    (opacity : Opacity) (preference : String) (n_colors : Nat)
    (scalars : Option (List ℚ)) : Except PyErr (Bool × OpVal × List String) :=
  match opacity with
  | .str name =>
    match get_array mesh name preference with
    | some o =>
      match scalars with
      | none => .error .attrError
      | some s =>
        if s.length ≠ o.length then .error .valueError
        else .ok (true, .array o, opacityWarnings o)
    | none => .ok (false, .array (otf (.str name) n_colors), [])
  | .arr a =>
    if a.length = mesh.n_cells ∨ a.length = mesh.n_points then
      .ok (true, .array a, [])
    else
      .ok (false, .array (otf (.arr a) n_colors), [])
  | .num q => .ok (false, .scalar q, [])

/-- Shallow embedding of `process_opacity(mesh, opacity, preference,
n_colors, scalars, use_transparency)` from `_plotting.py`: the type
dispatch above followed by the `use_transparency` tail.  The external
`opacity_transfer_function` collaborator is the parameter `otf` (called on
the original string, or on the converted array, exactly as in the source).
The result carries the `_custom_opac` flag, the resolved value, and the
list of warnings emitted; `.error` models an escaping Python exception. -/
def process_opacity (otf : Opacity → Nat → List ℚ) (mesh : OMesh)
    (opacity : Opacity) (preference : String) (n_colors : Nat)
    (scalars : Option (List ℚ)) (use_transparency : Bool) :
    Except PyErr (Bool × OpVal × List String) := do
  let (custom, v, warns) ← resolveOpacity otf mesh opacity preference n_colors scalars
  let v2 ← applyTransparency use_transparency v
  pure (custom, v2, warns)

theorem idOps_contract : OpsContract idOps := by
  refine ⟨?_, ?_, ?_, ?_, ?_, ?_, ?_, ?_, ?_, ?_, ?_, ?_⟩
  · intro m hm p hp
    rcases List.mem_cons.mp hp with hp | hp
    · subst hp
      simp [idOps]
    · exact hm p (List.mem_of_mem_filter hp)
  · intro _ _ hm
    exact hm
  · intro _ hm
    exact hm
  · intro m
    rfl
  · intro _ _
    rfl
  · intro _
    rfl
  · intro _ _
    rfl
  · intro _
    rfl
  · intro _
    rfl
  · intro m h
    exact (listLookup_pdSet_ne _ _ _ _ (by decide)).trans h
  · intro _ _ h
    exact h
  · intro _ h
    exact h

/-! ## Stage lemmas for `prepare_smooth_shading` -/

theorem prepare_eq (ops : MeshOps) (mesh : PMesh) (scalars : Option (List ℚ))
    (tex sse : Bool) (fa : ℚ) :
    prepare_smooth_shading ops mesh scalars tex sse fa =
      (scalarsStep (shadingSurface ops mesh sse fa) scalars
          (indicesArrayName mesh.is_polydata sse)).bind (fun s2 =>
        (textureStep (shadingSurface ops mesh sse fa)
            (extractedMesh ops mesh).t_coords tex
            (indicesArrayName mesh.is_polydata sse)).bind (fun m3 =>
          (deleteStep m3 (indicesArrayName mesh.is_polydata sse)).bind (fun m4 =>
            some (m4, s2)))) := rfl

theorem scalarsStep_none (mesh2 : PMesh) (indices : Option String) :
    scalarsStep mesh2 none indices = some none := by
  cases indices <;> rfl

theorem scalarsStep_noIndices (mesh2 : PMesh) (scalars : Option (List ℚ)) :
    scalarsStep mesh2 scalars none = some scalars := by
  cases scalars <;> rfl

theorem scalarsStep_some_some {mesh2 : PMesh} {s : List ℚ} {name : String}
    {r : Option (List ℚ)}
    (h : scalarsStep mesh2 (some s) (some name) = some r) :
    ∃ ind, listLookup mesh2.point_data name = some ind ∧
      ∃ s2, npIndex 0 s ind = some s2 ∧ r = some s2 := by
  have he : scalarsStep mesh2 (some s) (some name) =
      match listLookup mesh2.point_data name with
      | some ind => (npIndex 0 s ind).map some
      | none => none := rfl
  rw [he] at h
  cases hl : listLookup mesh2.point_data name with
  | none =>
    rw [hl] at h
    exact absurd h (by simp)
  | some ind =>
    rw [hl] at h
    have h2 : (npIndex 0 s ind).map some = some r := h
    cases hn : npIndex 0 s ind with
    | none =>
      rw [hn] at h2
      exact absurd h2 (by simp)
    | some s2 =>
      rw [hn] at h2
      injection h2 with h2
      exact ⟨ind, rfl, s2, hn, h2.symm⟩

theorem textureStep_true_some_eq (mesh2 : PMesh) (tc0 : Option (List Nat))
    (name : String) :
    textureStep mesh2 tc0 true (some name) =
      match listLookup mesh2.point_data name, tc0 with
      | some ind, some tc =>
        (npIndex 0 tc ind).map (fun tc2 => { mesh2 with t_coords := some tc2 })
      | _, _ => none := rfl

theorem textureStep_fields {mesh2 : PMesh} {tc0 : Option (List Nat)} {tex : Bool}
    {indices : Option String} {m3 : PMesh}
    (h : textureStep mesh2 tc0 tex indices = some m3) :
    m3.n_points = mesh2.n_points ∧ m3.point_data = mesh2.point_data ∧
      m3.is_polydata = mesh2.is_polydata ∧ m3.has_normals = mesh2.has_normals := by
  cases tex with
  | false =>
    have h2 : some mesh2 = some m3 := h
    injection h2 with h2
    subst h2
    exact ⟨rfl, rfl, rfl, rfl⟩
  | true =>
    cases indices with
    | none =>
      have h2 : some { mesh2 with t_coords := tc0 } = some m3 := h
      injection h2 with h2
      subst h2
      exact ⟨rfl, rfl, rfl, rfl⟩
    | some name =>
      rw [textureStep_true_some_eq] at h
      cases hl : listLookup mesh2.point_data name with
      | none =>
        rw [hl] at h
        cases tc0 with
        | none =>
          have h2 : (none : Option PMesh) = some m3 := h
          exact absurd h2 (by simp)
        | some tc =>
          have h2 : (none : Option PMesh) = some m3 := h
          exact absurd h2 (by simp)
      | some ind =>
        rw [hl] at h
        cases tc0 with
        | none =>
          have h2 : (none : Option PMesh) = some m3 := h
          exact absurd h2 (by simp)
        | some tc =>
          have h3 : (npIndex 0 tc ind).map
              (fun tc2 => { mesh2 with t_coords := some tc2 }) = some m3 := h
          cases hn : npIndex 0 tc ind with
          | none =>
            rw [hn] at h3
            exact absurd h3 (by simp)
          | some tc2 =>
            rw [hn] at h3
            injection h3 with h3
            subst h3
            exact ⟨rfl, rfl, rfl, rfl⟩

theorem deleteStep_fields {m3 : PMesh} {indices : Option String} {m4 : PMesh}
    (h : deleteStep m3 indices = some m4) :
    m4.n_points = m3.n_points ∧ m4.is_polydata = m3.is_polydata ∧
      m4.has_normals = m3.has_normals ∧
      ((indices = some "__orig_ids__" ∧
          m4.point_data = pdDel m3.point_data "__orig_ids__") ∨
        (indices ≠ some "__orig_ids__" ∧ m4.point_data = m3.point_data)) := by
  unfold deleteStep at h
  by_cases hi : indices = some "__orig_ids__"
  · rw [if_pos hi] at h
    cases hl : listLookup m3.point_data "__orig_ids__" with
    | none =>
      rw [hl] at h
      exact absurd h (by simp)
    | some v =>
      rw [hl] at h
      injection h with h
      subst h
      exact ⟨rfl, rfl, rfl, Or.inl ⟨hi, rfl⟩⟩
  · rw [if_neg hi] at h
    injection h with h
    subst h
    exact ⟨rfl, rfl, rfl, Or.inr ⟨hi, rfl⟩⟩

theorem shadingSurface_wf {ops : MeshOps} (hc : OpsContract ops) (mesh : PMesh)
    (sse : Bool) (fa : ℚ) (hm : mesh.wf) : (shadingSurface ops mesh sse fa).wf := by
  have h1 : (extractedMesh ops mesh).wf := by
    unfold extractedMesh
    by_cases hp : mesh.is_polydata
    · rwa [if_pos hp]
    · rw [if_neg hp]
      exact hc.extract_wf mesh hm
  unfold shadingSurface
  cases sse with
  | false =>
    rw [if_neg Bool.false_ne_true]
    exact hc.inplace_wf _ h1
  | true =>
    rw [if_pos rfl]
    refine hc.split_wf _ _ ?_
    by_cases hp : mesh.is_polydata
    · rw [if_pos hp]
      exact pdSet_wf _ _ _ h1 (List.length_range _)
    · rw [if_neg hp]
      exact h1

theorem shadingSurface_poly {ops : MeshOps} (hc : OpsContract ops) (mesh : PMesh)
    (sse : Bool) (fa : ℚ) : (shadingSurface ops mesh sse fa).is_polydata = true := by
  have h1 : (extractedMesh ops mesh).is_polydata = true := by
    unfold extractedMesh
    by_cases hp : mesh.is_polydata
    · rwa [if_pos hp]
    · rw [if_neg hp]
      exact hc.extract_poly mesh
  unfold shadingSurface
  cases sse with
  | false =>
    rw [if_neg Bool.false_ne_true, hc.inplace_poly]
    exact h1
  | true =>
    rw [if_pos rfl, hc.split_poly]
    by_cases hp : mesh.is_polydata
    · rw [if_pos hp]
      exact h1
    · rw [if_neg hp]
      exact h1

theorem shadingSurface_normals {ops : MeshOps} (hc : OpsContract ops)
    (mesh : PMesh) (sse : Bool) (fa : ℚ) :
    (shadingSurface ops mesh sse fa).has_normals = true := by
  unfold shadingSurface
  cases sse with
  | false =>
    rw [if_neg Bool.false_ne_true]
    exact hc.inplace_normals _
  | true =>
    rw [if_pos rfl]
    exact hc.split_normals _ _

theorem shadingSurface_no_orig {ops : MeshOps} (hc : OpsContract ops)
    (mesh : PMesh) (sse : Bool) (fa : ℚ)
    (hin : listLookup mesh.point_data "__orig_ids__" = none)
    (hncase : ¬(sse = true ∧ mesh.is_polydata = true)) :
    listLookup (shadingSurface ops mesh sse fa).point_data "__orig_ids__" = none := by
  have h1 : listLookup (extractedMesh ops mesh).point_data "__orig_ids__" = none := by
    unfold extractedMesh
    by_cases hp : mesh.is_polydata
    · rwa [if_pos hp]
    · rw [if_neg hp]
      exact hc.extract_no_orig mesh hin
  unfold shadingSurface
  cases sse with
  | false =>
    rw [if_neg Bool.false_ne_true]
    exact hc.inplace_no_orig _ h1
  | true =>
    rw [if_pos rfl]
    have hp : ¬(mesh.is_polydata = true) := fun e => hncase ⟨rfl, e⟩
    rw [if_neg hp]
    exact hc.split_no_orig _ _ h1

theorem indicesArrayName_orig_iff (p sse : Bool) :
    indicesArrayName p sse = some "__orig_ids__" ↔ sse = true ∧ p = true := by
  cases p <;> cases sse <;> simp [indicesArrayName]

theorem prepare_inv {ops : MeshOps} {mesh : PMesh} {scalars : Option (List ℚ)}
    {tex sse : Bool} {fa : ℚ} {m' : PMesh} {sout : Option (List ℚ)}
    (h : prepare_smooth_shading ops mesh scalars tex sse fa = some (m', sout)) :
    ∃ m3 m4,
      scalarsStep (shadingSurface ops mesh sse fa) scalars
        (indicesArrayName mesh.is_polydata sse) = some sout ∧
      textureStep (shadingSurface ops mesh sse fa)
        (extractedMesh ops mesh).t_coords tex
        (indicesArrayName mesh.is_polydata sse) = some m3 ∧
      deleteStep m3 (indicesArrayName mesh.is_polydata sse) = some m4 ∧
      m' = m4 := by
  rw [prepare_eq] at h
  rcases Option.bind_eq_some.mp h with ⟨s2, hs, h⟩
  rcases Option.bind_eq_some.mp h with ⟨m3, ht, h⟩
  rcases Option.bind_eq_some.mp h with ⟨m4, hd, h⟩
  injection h with h
  rw [Prod.mk.injEq] at h
  obtain ⟨h1, h2⟩ := h
  subst h1
  subst h2
  exact ⟨m3, m4, hs, ht, hd, rfl⟩

/-- **C3**: for every input dataset, polygonal or not, a successful run of
`prepare_smooth_shading` returns a mesh that is a pure surface
representation (`PolyData`) with computed point normals, assuming the
external dataset operations satisfy their contract: non-polydata inputs
pass through surface extraction, and normals are computed either with
vertex splitting or in place. -/
theorem claim_c3_surface_normals (ops : MeshOps) (hc : OpsContract ops)
    (mesh : PMesh) (scalars : Option (List ℚ)) (tex sse : Bool) (fa : ℚ)
    (m' : PMesh) (sout : Option (List ℚ))
    (h : prepare_smooth_shading ops mesh scalars tex sse fa = some (m', sout)) :
    m'.is_polydata = true ∧ m'.has_normals = true := by
  rcases prepare_inv h with ⟨m3, m4, hs, ht, hd, rfl⟩
  obtain ⟨-, -, hpoly3, hnorm3⟩ := textureStep_fields ht
  obtain ⟨-, hpoly4, hnorm4, -⟩ := deleteStep_fields hd
  constructor
  · rw [hpoly4, hpoly3, shadingSurface_poly hc]
  · rw [hnorm4, hnorm3, shadingSurface_normals hc]

/-- **C7**: for every combination of input mesh type, `split_sharp_edges`,
`scalars` and `texture`, the transient `'__orig_ids__'` array is absent
from the point data of the mesh returned by `prepare_smooth_shading`
(given that the input mesh does not carry it and the external operations
satisfy their contract): when created it is deleted before return, and it
is never created otherwise. -/
theorem claim_c7_orig_ids_absent (ops : MeshOps) (hc : OpsContract ops)
    (mesh : PMesh) (scalars : Option (List ℚ)) (tex sse : Bool) (fa : ℚ)
    (m' : PMesh) (sout : Option (List ℚ))
    (hin : listLookup mesh.point_data "__orig_ids__" = none)
    (h : prepare_smooth_shading ops mesh scalars tex sse fa = some (m', sout)) :
    listLookup m'.point_data "__orig_ids__" = none := by
  rcases prepare_inv h with ⟨m3, m4, hs, ht, hd, rfl⟩
  obtain ⟨-, hpd3, -, -⟩ := textureStep_fields ht
  obtain ⟨-, -, -, hcase⟩ := deleteStep_fields hd
  rcases hcase with ⟨hi, hpd4⟩ | ⟨hi, hpd4⟩
  · rw [hpd4]
    exact listLookup_pdDel_self _ _
  · rw [hpd4, hpd3]
    exact shadingSurface_no_orig hc mesh sse fa hin
      (fun hk => hi ((indicesArrayName_orig_iff _ _).mpr ⟨hk.1, hk.2⟩))

/-- **C1**: whenever `scalars` is given and an original-index array exists
(non-polydata input, or `split_sharp_edges` on), the scalars returned by a
successful `prepare_smooth_shading` are the input scalars re-indexed
through the output mesh's index array — `adjusted_scalars[i] =
scalars[ind[i]]` — and hence have exactly one entry per output-mesh point;
and whenever `scalars` is `None`, the returned scalars are `None`. -/
theorem claim_c1_scalars_reindexing :
    (∀ (ops : MeshOps), OpsContract ops → ∀ (mesh : PMesh) (s : List ℚ)
      (tex sse : Bool) (fa : ℚ) (m' : PMesh) (sout : Option (List ℚ)),
      mesh.wf →
      (mesh.is_polydata = false ∨ sse = true) →
      prepare_smooth_shading ops mesh (some s) tex sse fa = some (m', sout) →
      ∃ ind : List Nat, ind.length = m'.n_points ∧
        (∀ i ∈ ind, i < s.length) ∧
        sout = some (ind.map (fun j => s.getD j 0))) ∧
    (∀ (ops : MeshOps) (mesh : PMesh) (tex sse : Bool) (fa : ℚ)
      (m' : PMesh) (sout : Option (List ℚ)),
      prepare_smooth_shading ops mesh none tex sse fa = some (m', sout) →
      sout = none) := by
  constructor
  · intro ops hc mesh s tex sse fa m' sout hwf hcase h
    rcases prepare_inv h with ⟨m3, m4, hs, ht, hd, rfl⟩
    obtain ⟨name, hname⟩ :
        ∃ name, indicesArrayName mesh.is_polydata sse = some name := by
      rcases hcase with hp | hsse
      · cases hb : sse with
        | false => exact ⟨"vtkOriginalPointIds", by simp [indicesArrayName, hp]⟩
        | true => exact ⟨"vtkOriginalPointIds", by simp [indicesArrayName, hp]⟩
      · cases hb : mesh.is_polydata with
        | false => exact ⟨"vtkOriginalPointIds", by simp [indicesArrayName, hb]⟩
        | true => exact ⟨"__orig_ids__", by simp [indicesArrayName, hsse, hb]⟩
    rw [hname] at hs
    rcases scalarsStep_some_some hs with ⟨ind, hl, s2, hn, rfl⟩
    obtain ⟨hbound, hmap⟩ := npIndex_eq_some hn
    obtain ⟨hn3, -, -, -⟩ := textureStep_fields ht
    obtain ⟨hn4, -, -, -⟩ := deleteStep_fields hd
    refine ⟨ind, ?_, hbound, by rw [hmap]⟩
    rw [hn4, hn3]
    exact wf_lookup_length (shadingSurface_wf hc mesh sse fa hwf) hl
  · intro ops mesh tex sse fa m' sout h
    rcases prepare_inv h with ⟨m3, m4, hs, ht, hd, rfl⟩
    rw [scalarsStep_none] at hs
    injection hs with hs
    exact hs.symm

theorem textureStep_false (mesh2 : PMesh) (tc0 : Option (List Nat))
    (i : Option String) : textureStep mesh2 tc0 false i = some mesh2 := rfl

theorem textureStep_true_none (mesh2 : PMesh) (tc0 : Option (List Nat)) :
    textureStep mesh2 tc0 true none = some { mesh2 with t_coords := tc0 } := rfl

theorem deleteStep_noIndices (m3 : PMesh) : deleteStep m3 none = some m3 := rfl

/-- A polydata input with `split_sharp_edges=False` takes the in-place
normals path: no index array, scalars pass through unchanged, and the
result is the in-place-normals mesh (with texture coordinates restored
when `texture` is truthy). -/
theorem prepare_poly_no_split {ops : MeshOps} (mesh : PMesh)
    (scalars : Option (List ℚ)) (tex : Bool) (fa : ℚ)
    (hpoly : mesh.is_polydata = true) :
    prepare_smooth_shading ops mesh scalars tex false fa =
      some (if tex then
          { ops.compute_normals_inplace mesh with t_coords := mesh.t_coords }
        else ops.compute_normals_inplace mesh, scalars) := by
  have hextr : extractedMesh ops mesh = mesh := by
    rw [extractedMesh, if_pos hpoly]
  have hi : indicesArrayName mesh.is_polydata false = none := by
    rw [hpoly]
    rfl
  have hsurf : shadingSurface ops mesh false fa = ops.compute_normals_inplace mesh := by
    rw [shadingSurface, if_neg Bool.false_ne_true, hextr]
  rw [prepare_eq, hi, hsurf, hextr, scalarsStep_noIndices, Option.some_bind]
  cases tex with
  | false =>
    rw [textureStep_false, Option.some_bind, deleteStep_noIndices, Option.some_bind,
      if_neg Bool.false_ne_true]
  | true =>
    rw [textureStep_true_none, Option.some_bind, deleteStep_noIndices,
      Option.some_bind, if_pos rfl]

/-- **C8**: on a mesh that is already a pure surface, with
`split_sharp_edges=False`, `prepare_smooth_shading` succeeds, passes the
scalars through, and does not change the point count (normals are computed
onto the existing mesh); running it a second time with the same arguments
again leaves the point count at the original value. -/
theorem claim_c8_idempotent_point_count (ops : MeshOps) (hc : OpsContract ops)
    (mesh : PMesh) (scalars : Option (List ℚ)) (tex : Bool) (fa : ℚ)
    (hpoly : mesh.is_polydata = true) :
    ∃ m1, prepare_smooth_shading ops mesh scalars tex false fa = some (m1, scalars) ∧
      m1.n_points = mesh.n_points ∧
      ∃ m2, prepare_smooth_shading ops m1 scalars tex false fa = some (m2, scalars) ∧
        m2.n_points = mesh.n_points := by
  refine ⟨_, prepare_poly_no_split mesh scalars tex fa hpoly, ?_, ?_⟩
  · cases tex with
    | false =>
      rw [if_neg Bool.false_ne_true]
      exact hc.inplace_n_points mesh
    | true =>
      rw [if_pos rfl]
      exact hc.inplace_n_points mesh
  · have hpoly1 : (if tex then
        { ops.compute_normals_inplace mesh with t_coords := mesh.t_coords }
      else ops.compute_normals_inplace mesh).is_polydata = true := by
      cases tex with
      | false =>
        rw [if_neg Bool.false_ne_true, hc.inplace_poly]
        exact hpoly
      | true =>
        rw [if_pos rfl]
        show (ops.compute_normals_inplace mesh).is_polydata = true
        rw [hc.inplace_poly]
        exact hpoly
    refine ⟨_, prepare_poly_no_split _ scalars tex fa hpoly1, ?_⟩
    cases tex with
    | false =>
      rw [if_neg Bool.false_ne_true, hc.inplace_n_points, if_neg Bool.false_ne_true,
        hc.inplace_n_points]
    | true =>
      rw [if_pos rfl]
      show (ops.compute_normals_inplace _).n_points = mesh.n_points
      rw [hc.inplace_n_points]
      show ({ ops.compute_normals_inplace mesh with
        t_coords := mesh.t_coords } : PMesh).n_points = mesh.n_points
      show (ops.compute_normals_inplace mesh).n_points = mesh.n_points
      rw [hc.inplace_n_points]

/-! ## Lemmas for `process_opacity` -/

theorem resolveOpacity_str (otf : Opacity → Nat → List ℚ) (mesh : OMesh)
    (name pref : String) (n : Nat) (scalars : Option (List ℚ)) :
    resolveOpacity otf mesh (.str name) pref n scalars =
      match get_array mesh name pref with
      | some o =>
        match scalars with
        | none => .error .attrError
        | some s =>
          if s.length ≠ o.length then .error .valueError
          else .ok (true, .array o, opacityWarnings o)
      | none => .ok (false, .array (otf (.str name) n), []) := rfl

theorem resolveOpacity_arr (otf : Opacity → Nat → List ℚ) (mesh : OMesh)
    (a : List ℚ) (pref : String) (n : Nat) (scalars : Option (List ℚ)) :
    resolveOpacity otf mesh (.arr a) pref n scalars =
      if a.length = mesh.n_cells ∨ a.length = mesh.n_points then
        .ok (true, .array a, [])
      else
        .ok (false, .array (otf (.arr a) n), []) := rfl

theorem resolveOpacity_num (otf : Opacity → Nat → List ℚ) (mesh : OMesh)
    (q : ℚ) (pref : String) (n : Nat) (scalars : Option (List ℚ)) :
    resolveOpacity otf mesh (.num q) pref n scalars =
      .ok (false, .scalar q, []) := rfl

theorem process_opacity_of_resolve_ok {otf : Opacity → Nat → List ℚ}
    {mesh : OMesh} {opacity : Opacity} {pref : String} {n : Nat}
    {scalars : Option (List ℚ)} {custom : Bool} {v : OpVal}
    {warns : List String} (ut : Bool)
    (h : resolveOpacity otf mesh opacity pref n scalars = .ok (custom, v, warns)) :
    process_opacity otf mesh opacity pref n scalars ut =
      (applyTransparency ut v).bind (fun v2 => .ok (custom, v2, warns)) := by
  unfold process_opacity
  rw [h]
  rfl

theorem process_opacity_of_resolve_error {otf : Opacity → Nat → List ℚ}
    {mesh : OMesh} {opacity : Opacity} {pref : String} {n : Nat}
    {scalars : Option (List ℚ)} {e : PyErr} (ut : Bool)
    (h : resolveOpacity otf mesh opacity pref n scalars = .error e) :
    process_opacity otf mesh opacity pref n scalars ut = .error e := by
  unfold process_opacity
  rw [h]
  rfl

theorem applyTransparency_false (v : OpVal) :
    applyTransparency false v = .ok v := rfl

theorem applyTransparency_true_le {v : OpVal} {mx : ℚ}
    (hm : v.npMax = some mx) (h1 : mx ≤ 1) :
    applyTransparency true v = .ok (v.rsub 1) := by
  unfold applyTransparency
  rw [if_pos rfl, hm]
  show (if mx ≤ 1 then Except.ok (v.rsub 1)
    else if v.isNdarray then Except.ok (v.rsub 255) else Except.ok v) =
    Except.ok (v.rsub 1)
  rw [if_pos h1]

theorem applyTransparency_true_gt_arr {a : List ℚ} {mx : ℚ}
    (hm : OpVal.npMax (.array a) = some mx) (h1 : ¬mx ≤ 1) :
    applyTransparency true (.array a) = .ok ((OpVal.array a).rsub 255) := by
  unfold applyTransparency
  rw [if_pos rfl, hm]
  show (if mx ≤ 1 then Except.ok ((OpVal.array a).rsub 1)
    else if (OpVal.array a).isNdarray then Except.ok ((OpVal.array a).rsub 255)
    else Except.ok (OpVal.array a)) = Except.ok ((OpVal.array a).rsub 255)
  rw [if_neg h1]
  simp [OpVal.isNdarray]

theorem applyTransparency_true_gt_scalar {q : ℚ} (h1 : ¬q ≤ 1) :
    applyTransparency true (.scalar q) = .ok (.scalar q) := by
  unfold applyTransparency
  rw [if_pos rfl]
  show (if q ≤ 1 then Except.ok ((OpVal.scalar q).rsub 1)
    else if (OpVal.scalar q).isNdarray then Except.ok ((OpVal.scalar q).rsub 255)
    else Except.ok (OpVal.scalar q)) = Except.ok (OpVal.scalar q)
  rw [if_neg h1, if_neg (by simp [OpVal.isNdarray])]

theorem foldl_max_le_iff {q b : ℚ} {l : List ℚ} :
    l.foldl max q ≤ b ↔ q ≤ b ∧ ∀ x ∈ l, x ≤ b := by
  induction l generalizing q with
  | nil => simp
  | cons a t ih =>
    rw [List.foldl_cons, ih]
    constructor
    · rintro ⟨h1, h2⟩
      rw [max_le_iff] at h1
      refine ⟨h1.1, fun x hx => ?_⟩
      rcases List.mem_cons.mp hx with rfl | hx
      · exact h1.2
      · exact h2 x hx
    · rintro ⟨h1, h2⟩
      refine ⟨max_le_iff.mpr ⟨h1, h2 a (List.mem_cons_self a t)⟩, fun x hx => ?_⟩
      exact h2 x (List.mem_cons_of_mem a hx)

theorem npMax_cons (x : ℚ) (xs : List ℚ) :
    OpVal.npMax (.array (x :: xs)) = some (xs.foldl max x) := rfl

theorem npMax_le_one_iff {x : ℚ} {xs : List ℚ} :
    xs.foldl max x ≤ 1 ↔ ∀ y ∈ x :: xs, y ≤ 1 := by
  rw [foldl_max_le_iff]
  constructor
  · rintro ⟨h1, h2⟩ y hy
    rcases List.mem_cons.mp hy with rfl | hy
    · exact h1
    · exact h2 y hy
  · intro h
    exact ⟨h x (List.mem_cons_self x xs), fun y hy => h y (List.mem_cons_of_mem x hy)⟩

theorem opacityWarnings_over_mem {o : List ℚ} (h : ∃ x ∈ o, 1 < x) :
    "Opacity scalars contain values over 1" ∈ opacityWarnings o := by
  unfold opacityWarnings
  rcases h with ⟨x, hx, hgt⟩
  rw [if_pos (List.any_eq_true.mpr ⟨x, hx, decide_eq_true hgt⟩)]
  exact List.mem_append_left _ (List.mem_singleton_self _)

theorem opacityWarnings_under_mem {o : List ℚ} (h : ∃ x ∈ o, x < 0) :
    "Opacity scalars contain values less than 0" ∈ opacityWarnings o := by
  unfold opacityWarnings
  rcases h with ⟨x, hx, hlt⟩
  refine List.mem_append_right _ ?_
  rw [if_pos (List.any_eq_true.mpr ⟨x, hx, decide_eq_true hlt⟩)]
  exact List.mem_singleton_self _

theorem process_str_found (otf : Opacity → Nat → List ℚ) (mesh : OMesh)
    (name pref : String) (n : Nat) {s o : List ℚ}
    (hl : get_array mesh name pref = some o) (hlen : s.length = o.length) :
    process_opacity otf mesh (.str name) pref n (some s) false =
      .ok (true, .array o, opacityWarnings o) := by
  have hres : resolveOpacity otf mesh (.str name) pref n (some s) =
      .ok (true, .array o, opacityWarnings o) := by
    rw [resolveOpacity_str, hl]
    show (if s.length ≠ o.length then Except.error PyErr.valueError
      else Except.ok (true, OpVal.array o, opacityWarnings o)) =
      Except.ok (true, OpVal.array o, opacityWarnings o)
    rw [if_neg (fun hne => hne hlen)]
  rw [process_opacity_of_resolve_ok false hres]
  rfl

/-- **C2**: a numeric array/list/tuple opacity whose length equals the
mesh's point or cell count is returned literally with
`_custom_opac = True` (the array itself, before any transparency
post-processing); any other length is delegated to the opacity transfer
function sampled at `n_colors`, with `_custom_opac = False`; consequently
(given the transfer function's length contract) the returned boolean
disambiguates a per-element array from an `n_colors`-length curve. -/
theorem claim_c2_array_literal_vs_curve :
    (∀ (otf : Opacity → Nat → List ℚ) (mesh : OMesh) (a : List ℚ)
      (pref : String) (n : Nat) (scalars : Option (List ℚ)),
      (a.length = mesh.n_cells ∨ a.length = mesh.n_points) →
      process_opacity otf mesh (.arr a) pref n scalars false =
        .ok (true, .array a, [])) ∧
    (∀ (otf : Opacity → Nat → List ℚ) (mesh : OMesh) (a : List ℚ)
      (pref : String) (n : Nat) (scalars : Option (List ℚ)),
      ¬(a.length = mesh.n_cells ∨ a.length = mesh.n_points) →
      process_opacity otf mesh (.arr a) pref n scalars false =
        .ok (false, .array (otf (.arr a) n), [])) ∧
    (∀ (otf : Opacity → Nat → List ℚ) (mesh : OMesh) (a : List ℚ)
      (pref : String) (n : Nat) (scalars : Option (List ℚ))
      (custom : Bool) (v : List ℚ) (warns : List String),
      (∀ x m, (otf x m).length = m) →
      process_opacity otf mesh (.arr a) pref n scalars false =
        .ok (custom, .array v, warns) →
      (custom = true → v.length = mesh.n_cells ∨ v.length = mesh.n_points) ∧
      (custom = false → v.length = n)) := by
  have hlit : ∀ (otf : Opacity → Nat → List ℚ) (mesh : OMesh) (a : List ℚ)
      (pref : String) (n : Nat) (scalars : Option (List ℚ)),
      (a.length = mesh.n_cells ∨ a.length = mesh.n_points) →
      process_opacity otf mesh (.arr a) pref n scalars false =
        .ok (true, .array a, []) := by
    intro otf mesh a pref n scalars hlen
    have hres : resolveOpacity otf mesh (.arr a) pref n scalars =
        .ok (true, .array a, []) := by
      rw [resolveOpacity_arr, if_pos hlen]
    rw [process_opacity_of_resolve_ok false hres]
    rfl
  have hcurve : ∀ (otf : Opacity → Nat → List ℚ) (mesh : OMesh) (a : List ℚ)
      (pref : String) (n : Nat) (scalars : Option (List ℚ)),
      ¬(a.length = mesh.n_cells ∨ a.length = mesh.n_points) →
      process_opacity otf mesh (.arr a) pref n scalars false =
        .ok (false, .array (otf (.arr a) n), []) := by
    intro otf mesh a pref n scalars hlen
    have hres : resolveOpacity otf mesh (.arr a) pref n scalars =
        .ok (false, .array (otf (.arr a) n), []) := by
      rw [resolveOpacity_arr, if_neg hlen]
    rw [process_opacity_of_resolve_ok false hres]
    rfl
  refine ⟨hlit, hcurve, ?_⟩
  intro otf mesh a pref n scalars custom v warns hotf h
  by_cases hlen : a.length = mesh.n_cells ∨ a.length = mesh.n_points
  · rw [hlit otf mesh a pref n scalars hlen] at h
    injection h with h
    rw [Prod.mk.injEq, Prod.mk.injEq] at h
    obtain ⟨hc, hv, -⟩ := h
    have hav : a = v := by injection hv
    subst hav
    subst hc
    exact ⟨fun _ => hlen, fun hf => absurd hf (by simp)⟩
  · rw [hcurve otf mesh a pref n scalars hlen] at h
    injection h with h
    rw [Prod.mk.injEq, Prod.mk.injEq] at h
    obtain ⟨hc, hv, -⟩ := h
    have hav : otf (.arr a) n = v := by injection hv
    subst hc
    exact ⟨fun ht => absurd ht (by simp), fun _ => by rw [← hav]; exact hotf _ _⟩

/-- **C4**: when a string opacity resolves to a mesh attribute and a
`scalars` array is given, equal lengths return the looked-up array
literally with `_custom_opac = True`, while unequal lengths raise
`ValueError` and produce no output. -/
theorem claim_c4_named_opacity_length_check :
    (∀ (otf : Opacity → Nat → List ℚ) (mesh : OMesh) (name pref : String)
      (n : Nat) (s o : List ℚ),
      get_array mesh name pref = some o →
      s.length = o.length →
      process_opacity otf mesh (.str name) pref n (some s) false =
        .ok (true, .array o, opacityWarnings o)) ∧
    (∀ (otf : Opacity → Nat → List ℚ) (mesh : OMesh) (name pref : String)
      (n : Nat) (s o : List ℚ) (ut : Bool),
      get_array mesh name pref = some o →
      s.length ≠ o.length →
      process_opacity otf mesh (.str name) pref n (some s) ut =
        .error .valueError) := by
  constructor
  · intro otf mesh name pref n s o hl hlen
    exact process_str_found otf mesh name pref n hl hlen
  · intro otf mesh name pref n s o ut hl hne
    have hres : resolveOpacity otf mesh (.str name) pref n (some s) =
        .error .valueError := by
      rw [resolveOpacity_str, hl]
      show (if s.length ≠ o.length then Except.error PyErr.valueError
        else Except.ok (true, OpVal.array o, opacityWarnings o)) =
        Except.error PyErr.valueError
      rw [if_pos hne]
    exact process_opacity_of_resolve_error ut hres

/-- **C5**: when a string opacity does not name any mesh attribute, the
lookup failure is recovered locally: `process_opacity` falls back to the
opacity transfer function with `n_colors` samples and returns
`_custom_opac = False` with an array of length `n_colors` (for any
`use_transparency`, given a positive `n_colors` and the transfer
function's length contract). -/
theorem claim_c5_lookup_failure_fallback (otf : Opacity → Nat → List ℚ)
    (mesh : OMesh) (name pref : String) (n : Nat) (scalars : Option (List ℚ))
    (ut : Bool) (hl : get_array mesh name pref = none)
    (hotf : ∀ x m, (otf x m).length = m) (hn : 0 < n) :
    ∃ v : List ℚ, process_opacity otf mesh (.str name) pref n scalars ut =
      .ok (false, .array v, []) ∧ v.length = n := by
  have hres : resolveOpacity otf mesh (.str name) pref n scalars =
      .ok (false, .array (otf (.str name) n), []) := by
    rw [resolveOpacity_str, hl]
  rw [process_opacity_of_resolve_ok ut hres]
  have hw : (otf (.str name) n).length = n := hotf _ _
  cases ut with
  | false => exact ⟨otf (.str name) n, rfl, hw⟩
  | true =>
    cases hwl : otf (.str name) n with
    | nil =>
      rw [hwl] at hw
      exact absurd hw.symm (Nat.ne_of_gt hn)
    | cons y ys =>
      rw [hwl] at hw
      by_cases hmx : ys.foldl max y ≤ 1
      · rw [applyTransparency_true_le (npMax_cons y ys) hmx]
        refine ⟨(y :: ys).map (fun x => 1 - x), rfl, ?_⟩
        rw [List.length_map]
        exact hw
      · rw [applyTransparency_true_gt_arr (npMax_cons y ys) hmx]
        refine ⟨(y :: ys).map (fun x => 255 - x), rfl, ?_⟩
        rw [List.length_map]
        exact hw

/-- **C6**: with `use_transparency=True`, a literal per-element array whose
maximum is at most 1 is inverted elementwise to `1 - value`; a literal
array whose maximum exceeds 1 is inverted to `255 - value`; and a plain
number above 1 (not an `ndarray`) is returned unchanged. -/
theorem claim_c6_transparency_postprocessing :
    (∀ (otf : Opacity → Nat → List ℚ) (mesh : OMesh) (x : ℚ) (xs : List ℚ)
      (pref : String) (n : Nat) (scalars : Option (List ℚ)),
      ((x :: xs).length = mesh.n_cells ∨ (x :: xs).length = mesh.n_points) →
      (∀ y ∈ x :: xs, y ≤ 1) →
      process_opacity otf mesh (.arr (x :: xs)) pref n scalars true =
        .ok (true, .array ((x :: xs).map (fun v => 1 - v)), [])) ∧
    (∀ (otf : Opacity → Nat → List ℚ) (mesh : OMesh) (x : ℚ) (xs : List ℚ)
      (pref : String) (n : Nat) (scalars : Option (List ℚ)),
      ((x :: xs).length = mesh.n_cells ∨ (x :: xs).length = mesh.n_points) →
      (∃ y ∈ x :: xs, 1 < y) →
      process_opacity otf mesh (.arr (x :: xs)) pref n scalars true =
        .ok (true, .array ((x :: xs).map (fun v => 255 - v)), [])) ∧
    (∀ (otf : Opacity → Nat → List ℚ) (mesh : OMesh) (q : ℚ)
      (pref : String) (n : Nat) (scalars : Option (List ℚ)),
      1 < q →
      process_opacity otf mesh (.num q) pref n scalars true =
        .ok (false, .scalar q, [])) := by
  refine ⟨?_, ?_, ?_⟩
  · intro otf mesh x xs pref n scalars hlen hle
    have hres : resolveOpacity otf mesh (.arr (x :: xs)) pref n scalars =
        .ok (true, .array (x :: xs), []) := by
      rw [resolveOpacity_arr, if_pos hlen]
    rw [process_opacity_of_resolve_ok true hres,
      applyTransparency_true_le (npMax_cons x xs) (npMax_le_one_iff.mpr hle)]
    rfl
  · intro otf mesh x xs pref n scalars hlen hex
    have hres : resolveOpacity otf mesh (.arr (x :: xs)) pref n scalars =
        .ok (true, .array (x :: xs), []) := by
      rw [resolveOpacity_arr, if_pos hlen]
    have hgt : ¬xs.foldl max x ≤ 1 := by
      intro hle
      rcases hex with ⟨y, hy, hgty⟩
      exact absurd (npMax_le_one_iff.mp hle y hy) (not_le.mpr hgty)
    rw [process_opacity_of_resolve_ok true hres,
      applyTransparency_true_gt_arr (npMax_cons x xs) hgt]
    rfl
  · intro otf mesh q pref n scalars hq
    rw [process_opacity_of_resolve_ok true (resolveOpacity_num otf mesh q pref n scalars),
      applyTransparency_true_gt_scalar (not_le.mpr hq)]
    rfl

/-- **C9**: opacity values outside `[0, 1]` in a successfully looked-up
named array produce advisory warnings ("values over 1" whenever a value
exceeds 1, "values less than 0" whenever a value is negative) but do not
abort: the call still returns `_custom_opac = True` with the values used
as-is. -/
theorem claim_c9_range_warning_nonfatal (otf : Opacity → Nat → List ℚ)
    (mesh : OMesh) (name pref : String) (n : Nat) (s o : List ℚ)
    (hl : get_array mesh name pref = some o) (hlen : s.length = o.length) :
    process_opacity otf mesh (.str name) pref n (some s) false =
        .ok (true, .array o, opacityWarnings o) ∧
      ((∃ x ∈ o, 1 < x) →
        "Opacity scalars contain values over 1" ∈ opacityWarnings o) ∧
      ((∃ x ∈ o, x < 0) →
        "Opacity scalars contain values less than 0" ∈ opacityWarnings o) :=
  ⟨process_str_found otf mesh name pref n hl hlen,
    fun hover => opacityWarnings_over_mem hover,
    fun hneg => opacityWarnings_under_mem hneg⟩

/-- **C10** (implicit): a paired `scalars` array is a de-facto precondition
for string-named opacity resolution — when the lookup succeeds but
`scalars` is `None`, the unconditional `scalars.shape[0]` access in the
`try` statement's `else` clause raises `AttributeError`, which is not
absorbed by the bare `except:` of the lookup, so the call produces no
output. -/
theorem claim_c10_scalars_none_attr_error (otf : Opacity → Nat → List ℚ)
    (mesh : OMesh) (name pref : String) (n : Nat) (ut : Bool) (o : List ℚ)
    (hl : get_array mesh name pref = some o) :
    process_opacity otf mesh (.str name) pref n none ut = .error .attrError := by
  have hres : resolveOpacity otf mesh (.str name) pref n none =
      .error .attrError := by
    rw [resolveOpacity_str, hl]
  exact process_opacity_of_resolve_error ut hres

/-! ## Concrete instances for the witnesses -/

/-- A small non-polydata dataset with one attribute array. -/
def c1Mesh : PMesh := ⟨2, [("temp", [5, 7])], false, false, some [10, 20]⟩

/-- The surface produced for `c1Mesh` by `idOps` (identity extraction map,
normals marked computed). -/
def c1OutMesh : PMesh :=
  ⟨2, [("vtkOriginalPointIds", [0, 1]), ("temp", [5, 7])], true, true, some [10, 20]⟩

/-- The scalars fed to `prepare_smooth_shading` in the C1 witness. -/
def c1Scalars : List ℚ := [3, 2]

/-- A small polydata dataset. -/
def c7Mesh : PMesh := ⟨2, [("temp", [5, 7])], true, false, none⟩

/-- The mesh returned for `c7Mesh` with edge splitting by `idOps`. -/
def c7OutMesh : PMesh := ⟨2, [("temp", [5, 7])], true, true, none⟩

/-- A concrete opacity transfer function: `n` samples of value one. -/
def otf0 : Opacity → Nat → List ℚ := fun _ n => List.replicate n 1

theorem otf0_length : ∀ (x : Opacity) (m : Nat), (otf0 x m).length = m :=
  fun _ m => List.length_replicate m _

/-- A dataset with 3 points, 2 cells and an `"op"` point array. -/
def c4OMesh : OMesh := ⟨3, 2, [("op", [0, 1, 1])], []⟩

/-- A dataset whose `"op"` array has values outside `[0, 1]`. -/
def c9OMesh : OMesh := ⟨3, 2, [("op", [0, 2, -1])], []⟩

/-! ## Witnesses -/

/-- Witness for C1 at a concrete non-polydata input with scalars. -/
theorem claim_c1_scalars_reindexing_witness :
    ∃ ind : List Nat, ind.length = c1OutMesh.n_points ∧
      (∀ i ∈ ind, i < c1Scalars.length) ∧
      (some c1Scalars : Option (List ℚ)) =
        some (ind.map (fun j => c1Scalars.getD j 0)) :=
  claim_c1_scalars_reindexing.1 idOps idOps_contract c1Mesh c1Scalars false false 0
    c1OutMesh (some c1Scalars) (by decide) (Or.inl (by decide)) (by decide)

/-- Witness for C3 at a concrete non-polydata input with edge splitting. -/
theorem claim_c3_surface_normals_witness :
    c1OutMesh.is_polydata = true ∧ c1OutMesh.has_normals = true :=
  claim_c3_surface_normals idOps idOps_contract c1Mesh none false true 0
    c1OutMesh none (by decide)

/-- Witness for C7 at a concrete polydata input with edge splitting (the
path that creates and then deletes `'__orig_ids__'`). -/
theorem claim_c7_orig_ids_absent_witness :
    listLookup c7OutMesh.point_data "__orig_ids__" = none :=
  claim_c7_orig_ids_absent idOps idOps_contract c7Mesh none false true 0
    c7OutMesh none (by decide) (by decide)

/-- Witness for C8 at a concrete polydata input without edge splitting. -/
theorem claim_c8_idempotent_point_count_witness :
    ∃ m1, prepare_smooth_shading idOps c7Mesh (some [1]) false false 0 =
        some (m1, some [1]) ∧
      m1.n_points = c7Mesh.n_points ∧
      ∃ m2, prepare_smooth_shading idOps m1 (some [1]) false false 0 =
          some (m2, some [1]) ∧
        m2.n_points = c7Mesh.n_points :=
  claim_c8_idempotent_point_count idOps idOps_contract c7Mesh (some [1])
    false 0 (by decide)

/-- Witness for C2: a length-3 array on a 3-point mesh is literal, a
length-1 array goes through the transfer function, and the flag
classifies the result's length. -/
theorem claim_c2_array_literal_vs_curve_witness :
    process_opacity otf0 c4OMesh (.arr [1, 0, 1]) "point" 8 none false =
        .ok (true, .array [1, 0, 1], []) ∧
      process_opacity otf0 c4OMesh (.arr [1]) "point" 8 none false =
        .ok (false, .array (otf0 (.arr [1]) 8), []) ∧
      ((true = true →
          ([1, 0, 1] : List ℚ).length = c4OMesh.n_cells ∨
            ([1, 0, 1] : List ℚ).length = c4OMesh.n_points) ∧
        (true = false → ([1, 0, 1] : List ℚ).length = 8)) :=
  ⟨claim_c2_array_literal_vs_curve.1 otf0 c4OMesh [1, 0, 1] "point" 8 none
      (by decide),
    claim_c2_array_literal_vs_curve.2.1 otf0 c4OMesh [1] "point" 8 none
      (by decide),
    claim_c2_array_literal_vs_curve.2.2 otf0 c4OMesh [1, 0, 1] "point" 8
      none true [1, 0, 1] [] otf0_length
      (claim_c2_array_literal_vs_curve.1 otf0 c4OMesh [1, 0, 1] "point" 8
        none (by decide))⟩

/-- Witness for C4: matching lengths succeed literally; a length-2
`scalars` against the length-3 `"op"` array raises `ValueError`. -/
theorem claim_c4_named_opacity_length_check_witness :
    process_opacity otf0 c4OMesh (.str "op") "point" 8 (some [1, 2, 3]) false =
        .ok (true, .array [0, 1, 1], opacityWarnings [0, 1, 1]) ∧
      process_opacity otf0 c4OMesh (.str "op") "point" 8 (some [1, 2]) false =
        .error .valueError :=
  ⟨claim_c4_named_opacity_length_check.1 otf0 c4OMesh "op" "point" 8 [1, 2, 3]
      [0, 1, 1] (by decide) (by decide),
    claim_c4_named_opacity_length_check.2 otf0 c4OMesh "op" "point" 8 [1, 2]
      [0, 1, 1] false (by decide) (by decide)⟩

/-- Witness for C5: a name missing from the mesh falls back to the curve
generator with 8 samples. -/
theorem claim_c5_lookup_failure_fallback_witness :
    ∃ v : List ℚ, process_opacity otf0 c4OMesh (.str "missing") "point" 8 none
        true = .ok (false, .array v, []) ∧ v.length = 8 :=
  claim_c5_lookup_failure_fallback otf0 c4OMesh "missing" "point" 8 none true
    (by decide) otf0_length (by decide)

/-- Witness for C6: elementwise `1 - v` below the threshold, `255 - v`
above it for arrays, and a plain number above 1 unchanged. -/
theorem claim_c6_transparency_postprocessing_witness :
    process_opacity otf0 c4OMesh (.arr [1, 0, 1]) "point" 8 none true =
        .ok (true, .array (([1, 0, 1] : List ℚ).map (fun v => 1 - v)), []) ∧
      process_opacity otf0 c4OMesh (.arr [1, 2, 0]) "point" 8 none true =
        .ok (true, .array (([1, 2, 0] : List ℚ).map (fun v => 255 - v)), []) ∧
      process_opacity otf0 c4OMesh (.num 2) "point" 8 none true =
        .ok (false, .scalar 2, []) :=
  ⟨claim_c6_transparency_postprocessing.1 otf0 c4OMesh 1 [0, 1] "point" 8
      none (by decide) (by decide),
    claim_c6_transparency_postprocessing.2.1 otf0 c4OMesh 1 [2, 0]
      "point" 8 none (by decide) (by decide),
    claim_c6_transparency_postprocessing.2.2 otf0 c4OMesh 2 "point" 8 none
      (by decide)⟩

/-- Witness for C9: the value 2 in the `"op"` array triggers the over-1
warning, the value -1 the under-0 warning, and the call still returns the
literal array. -/
theorem claim_c9_range_warning_nonfatal_witness :
    process_opacity otf0 c9OMesh (.str "op") "point" 8 (some [1, 2, 3]) false =
        .ok (true, .array [0, 2, -1], opacityWarnings [0, 2, -1]) ∧
      ((∃ x ∈ ([0, 2, -1] : List ℚ), 1 < x) →
        "Opacity scalars contain values over 1" ∈ opacityWarnings [0, 2, -1]) ∧
      ((∃ x ∈ ([0, 2, -1] : List ℚ), x < 0) →
        "Opacity scalars contain values less than 0" ∈
          opacityWarnings [0, 2, -1]) :=
  claim_c9_range_warning_nonfatal otf0 c9OMesh "op" "point" 8 [1, 2, 3]
    [0, 2, -1] (by decide) (by decide)

/-- Witness for C10: a successful lookup with `scalars=None` raises
`AttributeError`. -/
theorem claim_c10_scalars_none_attr_error_witness :
    process_opacity otf0 c4OMesh (.str "op") "point" 8 none false =
      .error .attrError :=
  claim_c10_scalars_none_attr_error otf0 c4OMesh "op" "point" 8 false
    [0, 1, 1] (by decide)
